import Mathlib

/-!
Verification development for the Videoteka browser client (`src/app.js`).

The file gives a shallow embedding of the client's pure logic:
the sort pipeline (`sortFilms`), the request gateway (`apiRequest`
header construction and response handling), the auth-form controller
(`showForm`, login submit), the cart/bookmark sync store
(`toggleCart`/`toggleBookmark`/`updateStorage`) and the image
resolution chain of `renderMovies`/`getImagePathForFilm`.

Browser built-ins are modelled explicitly: DOM state, `localStorage`
and the fetch response are threaded as values; `JSON.parse` is an
arbitrary parse function parameter (the code only branches on its
success); thrown exceptions become `Except` values or explicit
outcome fields.  JavaScript numbers are modelled as exact rationals
(plus signed infinities for `parseFloat`); `String.prototype.sort`
comparisons are on UTF-16 code units; `toLowerCase` is a parameter
of the sort pipeline and the image lookup: its full Unicode case
table is a platform datum, the code only applies it pointwise, and
every verified property is proved for an arbitrary fold; the ASCII
fold `strToLower` instantiates it at concrete witness inputs.
-/

namespace Videoteka

/-- JavaScript whitespace accepted by `parseFloat` before the number:
space, tab, LF, CR, VT, FF, NBSP, BOM, LS, PS. -/
def isJsWs (c : Char) : Bool :=
  c == ' ' || c == '\t' || c == '\n' || c == '\r' || c.toNat == 11 ||
  c.toNat == 12 || c.toNat == 160 || c.toNat == 65279 ||
  c.toNat == 8232 || c.toNat == 8233

/-- Value of a run of decimal digits. -/
def digitsToNat (l : List Char) : Nat :=
  l.foldl (fun n c => 10 * n + (c.toNat - 48)) 0

/-- Result of `parseFloat` when it does not return NaN: a finite
rational or one of the two signed infinities. -/
inductive JsNum where
  | negInf : JsNum
  | fin (q : ℚ) : JsNum
  | posInf : JsNum
deriving DecidableEq, Repr

/-- Exponent part of a decimal literal: consumes `e`/`E`, an optional
sign and digits.  When the digits are absent the exponent part is not
part of the literal, so its contribution is `10 ^ 0`; returning `0`
models that. -/
def parseExponent (l : List Char) : Int :=
  match l with
  | c :: rest =>
    if c == 'e' || c == 'E' then
      match rest with
      | '+' :: r2 => Int.ofNat (digitsToNat (r2.takeWhile Char.isDigit))
      | '-' :: r2 => - Int.ofNat (digitsToNat (r2.takeWhile Char.isDigit))
      | r2 => Int.ofNat (digitsToNat (r2.takeWhile Char.isDigit))
    else 0
  | [] => 0

/-- Mantissa value `ip.fp` of integer digits `ip` and fraction digits
`fp`. -/
def mantissaQ (ip fp : List Char) : ℚ :=
  (digitsToNat ip : ℚ) + (digitsToNat fp : ℚ) / (10 : ℚ) ^ fp.length

/-- Unsigned part of `parseFloat`: the literal `Infinity`, or decimal
digits with optional fraction and exponent; `none` means no valid
prefix (NaN). -/
def parseUnsignedNum (l : List Char) (neg : Bool) : Option JsNum :=
  if l.take 8 = "Infinity".data then
    some (if neg then JsNum.negInf else JsNum.posInf)
  else
    let ip := l.takeWhile Char.isDigit
    let r1 := l.dropWhile Char.isDigit
    match r1 with
    | '.' :: r2 =>
      let fp := r2.takeWhile Char.isDigit
      let r3 := r2.dropWhile Char.isDigit
      if ip.isEmpty && fp.isEmpty then none
      else
        some (JsNum.fin ((if neg then -1 else 1) *
          mantissaQ ip fp * (10 : ℚ) ^ parseExponent r3))
    | _ =>
      if ip.isEmpty then none
      else
        some (JsNum.fin ((if neg then -1 else 1) *
          mantissaQ ip [] * (10 : ℚ) ^ parseExponent r1))

/-- JavaScript `parseFloat` over exact rationals: skip leading
whitespace, optional sign, then the longest decimal-literal prefix;
`none` models NaN. -/
def parseFloatQ (s : String) : Option JsNum :=
  match s.data.dropWhile isJsWs with
  | '+' :: rest => parseUnsignedNum rest false
  | '-' :: rest => parseUnsignedNum rest true
  | l => parseUnsignedNum l false

/-- A JavaScript primitive as it occurs in movie fields: a string or a
number. -/
inductive JsPrim where
  | str (s : String) : JsPrim
  | num (q : ℚ) : JsPrim
deriving DecidableEq, Repr

/-- Sort fields offered by the `sortSelect` control. -/
inductive SortField where
  | title : SortField
  | author : SortField
  | price : SortField
deriving DecidableEq, Repr

/-- A movie record as consumed by `sortFilms`: the three sortable
fields, each possibly absent (`a[field] ?? ''` supplies the default). -/
structure Film where
  title : Option String
  author : Option String
  price : Option JsPrim
deriving DecidableEq, Repr

/-- Numeric key used by the `price` branch of the comparator:
`parseFloat(a.price ?? '') || 0`.  A missing price parses the empty
string, and `|| 0` maps NaN to `0` (a parsed `0` or `-0` is already
`0` in the exact model); infinities are truthy and kept. -/
def priceKey (f : Film) : JsNum :=
  let parsed : Option JsNum :=
    match f.price with
    | none => parseFloatQ ""
    | some (JsPrim.str s) => parseFloatQ s
    | some (JsPrim.num q) => some (JsNum.fin q)
  parsed.getD (JsNum.fin 0)

/-- Order on `parseFloat` results, matching the sign of the JS
comparator `numA - numB` (`Infinity - Infinity` and
`-Infinity - -Infinity` are NaN, which `Array.prototype.sort` treats
as zero, i.e. as equal keys). -/
def JsNum.le : JsNum → JsNum → Bool
  | JsNum.negInf, _ => true
  | _, JsNum.posInf => true
  | JsNum.posInf, _ => false
  | JsNum.fin _, JsNum.negInf => false
  | JsNum.fin a, JsNum.fin b => decide (a ≤ b)

/-- UTF-16 code units of a character (JS strings compare by code
unit). -/
def charUtf16 (c : Char) : List Nat :=
  if c.toNat < 65536 then [c.toNat]
  else [55296 + (c.toNat - 65536) / 1024, 56320 + (c.toNat - 65536) % 1024]

/-- UTF-16 code-unit sequence of a string. -/
def utf16Units (s : String) : List Nat :=
  s.data.foldr (fun c acc => charUtf16 c ++ acc) []

/-- Lexicographic order on code-unit sequences: exactly the JS `<`/`>`
comparison on strings (a proper prefix is smaller). -/
def lexLe : List Nat → List Nat → Bool
  | [], _ => true
  | _ :: _, [] => false
  | a :: as, b :: bs =>
    if a < b then true else if b < a then false else lexLe as bs

/-- The ASCII case fold over the character list.  It agrees with
`String.prototype.toLowerCase` exactly on ASCII strings and serves
only to instantiate the `lower` parameter of the definitions below at
concrete witness inputs; the theorems quantify over the fold itself. -/
def strToLower (s : String) : String := String.mk (s.data.map Char.toLower)

/-- JavaScript `String.prototype.startsWith` over the character lists
(kernel-executable, unlike `String.startsWith`). -/
def strStartsWith (s p : String) : Bool := p.data.isPrefixOf s.data

/-- JavaScript `String.prototype.trim`: strip the JS whitespace set
from both ends. -/
def strTrim (s : String) : String :=
  String.mk (((s.data.dropWhile isJsWs).reverse.dropWhile isJsWs).reverse)

/-- String value of a sortable field, `a[field] ?? ''`.  The `price`
case never reaches the string comparator in `sortFilms`. -/
def strFieldVal : SortField → Film → String
  | SortField.title, f => f.title.getD ""
  | SortField.author, f => f.author.getD ""
  | SortField.price, _ => ""

/-- Case-folded UTF-16 key of the string comparator:
`String(valA).toLowerCase()` compared with `<` / `>`.  `lower` stands
for `String.prototype.toLowerCase`, whose full Unicode case mapping is
a platform table; the comparator applies it pointwise to both sides,
so the ordering theorems below hold for the actual JS fold. -/
def textKey (lower : String → String) (field : SortField) (f : Film) :
    List Nat :=
  utf16Units (lower (strFieldVal field f))

/-- The comparator of `sortFilms` as a total boolean preorder:
`filmLe lower field a b` holds iff the JS comparator returns `<= 0` on
`(a, b)`, where `lower` is the platform `toLowerCase`. -/
def filmLe (lower : String → String) (field : SortField) (a b : Film) :
    Bool :=
  match field with
  | SortField.price => JsNum.le (priceKey a) (priceKey b)
  | f => lexLe (textKey lower f a) (textKey lower f b)

/-- The sort pipeline: `[...films].sort(comparator)`.  The spread copy
plus ES2023's stable `Array.prototype.sort` with a consistent
comparator is a stable merge sort by `filmLe lower`; the input list is
not mutated (lists are immutable values here, and the result is a
fresh permutation). -/
def sortFilms (lower : String → String) (films : List Film)
    (field : SortField) : List Film :=
  films.mergeSort (filmLe lower field)

/-- A parsed JSON value (the result of `JSON.parse`, and the value
space the gateway inspects). -/
inductive JsValue where
  | null : JsValue
  | bool (b : Bool) : JsValue
  | num (q : ℚ) : JsValue
  | str (s : String) : JsValue
  | arr (xs : List JsValue) : JsValue
  | obj (fields : List (String × JsValue)) : JsValue

/-- JavaScript truthiness of a value (`undefined` is handled at the
`Option JsValue` level by its callers). -/
def jsTruthy : JsValue → Bool
  | JsValue.null => false
  | JsValue.bool b => b
  | JsValue.num q => decide (q ≠ 0)
  | JsValue.str s => decide (s ≠ "")
  | JsValue.arr _ => true
  | JsValue.obj _ => true

/-- Truthiness of a possibly-undefined value. -/
def optTruthy : Option JsValue → Bool
  | some v => jsTruthy v
  | none => false

/-- Property access `v.k`: `none` models `undefined` (missing key or
non-object receiver). -/
def getField : JsValue → String → Option JsValue
  | JsValue.obj fs, k => (fs.find? (fun kv => kv.1 == k)).map (fun kv => kv.2)
  | _, _ => none

/-- Number-to-string coercion.  Integral values match the JS
rendering; non-integral values are rendered as exact fractions (no
verified property depends on that case). -/
def qToString (q : ℚ) : String :=
  if q.den = 1 then toString q.num
  else toString q.num ++ "/" ++ toString q.den

/-- Hexadecimal digit for `\uXXXX` escapes. -/
def hexDigit (n : Nat) : Char :=
  if n < 10 then Char.ofNat (48 + n) else Char.ofNat (87 + n)

/-- Four-digit hexadecimal rendering of a code point below 0x20. -/
def hex4 (n : Nat) : String :=
  String.mk [hexDigit (n / 4096 % 16), hexDigit (n / 256 % 16),
             hexDigit (n / 16 % 16), hexDigit (n % 16)]

/-- JSON string escaping of one character. -/
def escapeJsonChar (c : Char) : String :=
  if c = '"' then "\\\""
  else if c = '\\' then "\\\\"
  else if c = '\n' then "\\n"
  else if c = '\r' then "\\r"
  else if c = '\t' then "\\t"
  else if c.toNat < 32 then "\\u" ++ hex4 c.toNat
  else String.singleton c

/-- JSON string escaping. -/
def escapeJson (s : String) : String :=
  s.data.foldr (fun c acc => escapeJsonChar c ++ acc) ""

mutual

/-- `JSON.stringify` on parsed values (the gateway applies it to
non-string error messages). -/
def jsonStringify : JsValue → String
  | JsValue.null => "null"
  | JsValue.bool true => "true"
  | JsValue.bool false => "false"
  | JsValue.num q => qToString q
  | JsValue.str s => "\"" ++ escapeJson s ++ "\""
  | JsValue.arr xs => "[" ++ jsonStringifyArr xs ++ "]"
  | JsValue.obj fs => "\x7b" ++ jsonStringifyObj fs ++ "\x7d"

/-- Comma-separated stringification of array elements. -/
def jsonStringifyArr : List JsValue → String
  | [] => ""
  | [x] => jsonStringify x
  | x :: xs => jsonStringify x ++ "," ++ jsonStringifyArr xs

/-- Comma-separated stringification of object entries. -/
def jsonStringifyObj : List (String × JsValue) → String
  | [] => ""
  | [kv] => "\"" ++ escapeJson kv.1 ++ "\":" ++ jsonStringify kv.2
  | kv :: fs =>
    "\"" ++ escapeJson kv.1 ++ "\":" ++ jsonStringify kv.2 ++ "," ++
      jsonStringifyObj fs

end

/-- A fetch response as the helper observes it: the success flag
`res.ok` and the body text `await res.text()`. -/
structure FetchResponse where
  ok : Bool
  body : String

/-- Body parsing of `apiRequest`:
`try { data = text ? JSON.parse(text) : {} } catch { data = { detail: text } }`.
`jsonParse` stands for `JSON.parse`; the helper only branches on
whether it succeeds. -/
def parseResponseBody (jsonParse : String → Option JsValue) (text : String) :
    JsValue :=
  if text = "" then JsValue.obj []
  else
    match jsonParse text with
    | some v => v
    | none => JsValue.obj [("detail", JsValue.str text)]

/-- Value of `data && (data.detail || data.message)`; `none` models
`undefined`. -/
def selectErrVal (data : JsValue) : Option JsValue :=
  if jsTruthy data then
    let d := getField data "detail"
    if optTruthy d then d else getField data "message"
  else some data

/-- Value of `(data && (data.detail || data.message)) || 'Ошибка запроса'`. -/
def requestErrorValue (data : JsValue) : JsValue :=
  match selectErrVal data with
  | some v => if jsTruthy v then v else JsValue.str "Ошибка запроса"
  | none => JsValue.str "Ошибка запроса"

/-- Thrown message on a non-success status:
`typeof message === 'string' ? message : JSON.stringify(message)`. -/
def requestErrorMessage (data : JsValue) : String :=
  match requestErrorValue data with
  | JsValue.str s => s
  | v => jsonStringify v

/-- Response handling of `apiRequest`: parse the body text, then
either return it (`res.ok`) or throw the normalized error message. -/
def apiRequest (jsonParse : String → Option JsValue) (res : FetchResponse) :
    Except String JsValue :=
  let data := parseResponseBody jsonParse res.body
  if res.ok then Except.ok data else Except.error (requestErrorMessage data)

/-- Assignment `obj[k] = v` on a header object modelled as an
association list: an existing key keeps its position and gets the new
value, a new key is appended. -/
def hset (hs : List (String × String)) (k v : String) :
    List (String × String) :=
  if hs.any (fun kv => kv.1 == k) then
    hs.map (fun kv => if kv.1 == k then (k, v) else kv)
  else hs ++ [(k, v)]

/-- Header lookup (first entry with the key). -/
def getHeader (hs : List (String × String)) (k : String) : Option String :=
  (hs.find? (fun kv => kv.1 == k)).map (fun kv => kv.2)

/-- Header construction of `apiRequest`:
`Object.assign({ 'Content-Type': 'application/json' }, options.headers || {})`,
then `headers['Authorization'] = `Bearer ...`` when a token is stored.
Note the Authorization assignment happens after the caller merge. -/
def buildHeaders (callerHeaders : List (String × String))
    (token : Option String) : List (String × String) :=
  let merged := callerHeaders.foldl (fun acc kv => hset acc kv.1 kv.2)
    [("Content-Type", "application/json")]
  match token with
  | some t => hset merged "Authorization" ("Bearer " ++ t)
  | none => merged

/-- A DOM element as `showForm` sees it: its `id` attribute and its
class list (`classList` is a set of tokens; the model keeps it as the
list of tokens without duplicates mattering). -/
structure DomElement where
  id : String
  classes : List String
deriving DecidableEq, Repr

/-- First pass of `showForm`: for every element matching `.form`,
remove the `active` class (the code guards the removal with a
`contains` check, which does not change the result). -/
def deactivateForms (doc : List DomElement) : List DomElement :=
  doc.map (fun el =>
    if el.classes.contains "form" then
      { el with classes := el.classes.filter (fun c => c != "active") }
    else el)

/-- Second pass of `showForm`: `document.getElementById(formId)` finds
the first element with the id, and when it exists its `classList` gets
`active` added (`classList.add` is a no-op on a token already
present). -/
def addActiveAt : List DomElement → String → List DomElement
  | [], _ => []
  | el :: rest, formId =>
    if el.id == formId then
      (if el.classes.contains "active" then el
       else { el with classes := el.classes ++ ["active"] }) :: rest
    else el :: addActiveAt rest formId

/-- The form switcher: deactivate every `.form`, then activate the
element with the requested id when one exists. -/
def showForm (doc : List DomElement) (formId : String) : List DomElement :=
  addActiveAt (deactivateForms doc) formId

/-- Identifier of a movie as the client holds it: the DOM handler
reads `data-id` (a string), the server sends `movie_id` (an integer). -/
def MovieId := Sum String Int
deriving DecidableEq, Repr

/-- String coercion applied to ids before comparison
(`String(item.id)`); integer rendering matches JS. -/
def idString : MovieId → String
  | Sum.inl s => s
  | Sum.inr n => toString n

/-- A collection item / movie descriptor `{ id, title, author, price }`
as pushed into the cart or bookmark lists. -/
structure Movie where
  id : MovieId
  title : String
  author : String
  price : String
deriving DecidableEq, Repr

/-- The mutable client state the sync store touches: both in-memory
lists and both persisted `localStorage` snapshots. -/
structure AppState where
  cart : List Movie
  bookmarks : List Movie
  storageCart : List Movie
  storageBookmarks : List Movie
deriving DecidableEq, Repr

/-- `updateStorage()`: rewrite both persisted snapshots from the
in-memory lists. -/
def updateStorage (st : AppState) : AppState :=
  { st with storageCart := st.cart, storageBookmarks := st.bookmarks }

/-- Outcome of one toggle invocation: the state after the call, the
glyph written to the button (if any) and the blocking notification
text. -/
structure ToggleResult where
  state : AppState
  glyph : Option String
  alert : String
deriving DecidableEq, Repr

/-- Message of the TypeError raised by `button.textContent = ...` when
the `querySelector` for the button returned `null`.  The exact text is
browser-dependent; no verified property depends on it beyond it being
the alert shown. -/
def typeErrorMessage : String :=
  "Cannot set properties of null (setting 'textContent')"

/-- Predicate of the `findIndex` lookup: ids compared as strings. -/
def idMatches (target : MovieId) (item : Movie) : Bool :=
  idString item.id == idString target

/-- Count of entries of a collection whose id (as a string) matches a
movie id. -/
def idCount (l : List Movie) (target : MovieId) : Nat :=
  l.countP (idMatches target)

/-- `toggleCart(movie)`.  `serverResult` is the outcome of the server
call attempted in the taken branch (`addCartOnServer` /
`removeCartOnServer`, both plain `apiRequest` wrappers);
`buttonExists` tells whether `querySelector` found the cart button.
Control flow of the source: on server failure the catch runs before
any mutation; on success the list is mutated, then the glyph is
written (throwing a TypeError into the same catch when the button is
`null`, which skips the success alert and `updateStorage`). -/
def toggleCart (st : AppState) (movie : Movie)
    (serverResult : Except String Unit) (buttonExists : Bool) : ToggleResult :=
  match st.cart.findIdx? (idMatches movie.id) with
  | none =>
    match serverResult with
    | Except.error e =>
      { state := st, glyph := none,
        alert := if e = "" then "Ошибка работы с корзиной" else e }
    | Except.ok _ =>
      let st1 := { st with cart := st.cart ++ [movie] }
      if buttonExists then
        { state := updateStorage st1, glyph := some "🗑️",
          alert := "Фильм \"" ++ movie.title ++ "\" добавлен в корзину!" }
      else
        { state := st1, glyph := none, alert := typeErrorMessage }
  | some i =>
    match serverResult with
    | Except.error e =>
      { state := st, glyph := none,
        alert := if e = "" then "Ошибка работы с корзиной" else e }
    | Except.ok _ =>
      let st1 := { st with cart := st.cart.eraseIdx i }
      if buttonExists then
        { state := updateStorage st1, glyph := some "🛒",
          alert := "Фильм \"" ++ movie.title ++ "\" удалён из корзины!" }
      else
        { state := st1, glyph := none, alert := typeErrorMessage }

/-- `toggleBookmark(movie)`: same structure as `toggleCart` over the
bookmark list, with the bookmark glyphs and messages. -/
def toggleBookmark (st : AppState) (movie : Movie)
    (serverResult : Except String Unit) (buttonExists : Bool) : ToggleResult :=
  match st.bookmarks.findIdx? (idMatches movie.id) with
  | none =>
    match serverResult with
    | Except.error e =>
      { state := st, glyph := none,
        alert := if e = "" then "Ошибка работы с закладками" else e }
    | Except.ok _ =>
      let st1 := { st with bookmarks := st.bookmarks ++ [movie] }
      if buttonExists then
        { state := updateStorage st1, glyph := some "🗑️",
          alert := "Фильм \"" ++ movie.title ++ "\" добавлен в закладки!" }
      else
        { state := st1, glyph := none, alert := typeErrorMessage }
  | some i =>
    match serverResult with
    | Except.error e =>
      { state := st, glyph := none,
        alert := if e = "" then "Ошибка работы с закладками" else e }
    | Except.ok _ =>
      let st1 := { st with bookmarks := st.bookmarks.eraseIdx i }
      if buttonExists then
        { state := updateStorage st1, glyph := some "🏷️",
          alert := "Фильм \"" ++ movie.title ++ "\" удалён из закладок!" }
      else
        { state := st1, glyph := none, alert := typeErrorMessage }

/-- String coercion `String(v)` as applied by `localStorage.setItem`.
Primitive coercions are exact; composite coercions are approximated
(no verified property depends on them). -/
def jsValToString : JsValue → String
  | JsValue.null => "null"
  | JsValue.bool true => "true"
  | JsValue.bool false => "false"
  | JsValue.num q => qToString q
  | JsValue.str s => s
  | JsValue.arr _ => ""
  | JsValue.obj _ => "[object Object]"

/-- Observable outcome of a login submit: the token key of
`localStorage` afterwards, the page navigated to (if any) and the
inline error shown (if any). -/
structure LoginOutcome where
  storedToken : Option String
  location : Option String
  errorShown : Option String
deriving DecidableEq, Repr

/-- The login submit handler.  `rawUsername` / `password` are the
field values (the username is trimmed before the emptiness check, the
password is not); `prevToken` is the token already in `localStorage`;
`gw` is the result of the `/login` gateway call.  When validation
fails no request is issued, so the outcome ignores `gw`.  On success
the token is stored only when `data && data.access_token` is truthy,
and the browser always navigates to `/home.html`. -/
def loginSubmit (rawUsername password : String) (prevToken : Option String)
    (gw : Except String JsValue) : LoginOutcome :=
  let username := strTrim rawUsername
  if username = "" ∨ password = "" then
    { storedToken := prevToken, location := none,
      errorShown := some "Заполните все поля!" }
  else
    match gw with
    | Except.ok data =>
      let tok :=
        if jsTruthy data then
          match getField data "access_token" with
          | some v => if jsTruthy v then some (jsValToString v) else prevToken
          | none => prevToken
        else prevToken
      { storedToken := tok, location := some "/home.html", errorShown := none }
    | Except.error e =>
      { storedToken := prevToken, location := none,
        errorShown := some (if e = "" then "Ошибка входа" else e) }

/-- The static title-to-path table of `getImagePathForFilm`, in source
order. -/
def titleMapping : List (String × String) :=
  [("The Dark Knight", "/images_for_movies/the_dark_knight.jpg"),
   ("Gladiator", "/images_for_movies/gladiator.jpg"),
   ("Mad Max: Fury Road", "/images_for_movies/mad_max_fury_road.jpg"),
   ("Forrest Gump", "/images_for_movies/forrest_gump.jpg"),
   ("Fight Club", "/images_for_movies/fight_club.jpg"),
   ("Alien", "/images_for_movies/alien.jpg"),
   ("Conjuring", "/images_for_movies/conjuring.jpg"),
   ("Conjuring 2", "/images_for_movies/conjuring_2.jpg"),
   ("Inception", "/images_for_movies/inception.jpg"),
   ("The Matrix", "/images_for_movies/the_matrix.jpg"),
   ("Interstellar", "/images_for_movies/interstellar.jpg"),
   ("Lord of the Rings: The Return of the King",
    "/images_for_movies/lord_of_the_rings_the_return_of_the_king.jpg"),
   ("Amelie", "/images_for_movies/amelie.jpg"),
   ("The Shawshank Redemption",
    "/images_for_movies/the_shawshank_redemption.jpg"),
   ("Star Wars", "/images_for_movies/star_wars.jpg")]

/-- Member names the object literal `titleMapping` inherits from
`Object.prototype`: a read `titleMapping[title]` at one of these names
hits the prototype chain and yields a truthy non-string value (a
built-in function, or the prototype object itself for `__proto__`). -/
def objectPrototypeMembers : List String :=
  ["constructor", "hasOwnProperty", "isPrototypeOf",
   "propertyIsEnumerable", "toLocaleString", "toString", "valueOf",
   "__proto__", "__defineGetter__", "__defineSetter__",
   "__lookupGetter__", "__lookupSetter__"]

/-- Value of the static image lookup: a string (table path, data URI
or placeholder), or the truthy non-string value inherited from
`Object.prototype` when the title collides with a member name. -/
inductive ImageSrc where
  | str (s : String) : ImageSrc
  | inherited (name : String) : ImageSrc
deriving DecidableEq, Repr

/-- Static image lookup.  The guard `if (titleMapping[title])` reads
own properties first (every table value is a non-empty, hence truthy,
string), then the prototype chain: a title naming an
`Object.prototype` member yields that inherited truthy value and is
returned, short-circuiting the rest.  Otherwise the case-insensitive
scan runs over the own entries only (`Object.entries`), else the
generic placeholder.  `lower` is the platform `toLowerCase` as in the
sort pipeline. -/
def getImagePathForFilm (lower : String → String) (title : String) :
    ImageSrc :=
  match titleMapping.find? (fun kv => kv.1 == title) with
  | some kv => ImageSrc.str kv.2
  | none =>
    if objectPrototypeMembers.contains title then ImageSrc.inherited title
    else
      match titleMapping.find? (fun kv => lower kv.1 == lower title) with
      | some kv => ImageSrc.str kv.2
      | none => ImageSrc.str "/images_for_movies/placeholder.jpg"

/-- A movie record as `renderMovies` consumes it for image resolution:
the optional embedded payload and the optional title. -/
structure RenderFilm where
  title : Option String
  movie_base64 : Option String
deriving DecidableEq, Repr

/-- Image-source resolution step of `renderMovies`: a truthy embedded
payload is used directly when it already starts with `data:image/`,
otherwise prefixed with the default MIME data-URI prefix; without a
payload the static lookup runs on `film.title`.  `none` models the
TypeError thrown when the title is absent in that branch
(`title.toLowerCase()` on `undefined`). -/
def movieImageSrc (lower : String → String) (film : RenderFilm) :
    Option ImageSrc :=
  match film.movie_base64 with
  | some b =>
    if b ≠ "" then
      some (ImageSrc.str (if strStartsWith b "data:image/" then b
            else "data:image/jpeg;base64," ++ b))
    else film.title.map (getImagePathForFilm lower)
  | none => film.title.map (getImagePathForFilm lower)

/-- Coercion the gateway applies to the selected error message:
`typeof message === 'string' ? message : JSON.stringify(message)`. -/
def messageToString (v : JsValue) : String :=
  match v with
  | JsValue.str s => s
  | v => jsonStringify v

/-- An element that is both a `.form` element and currently active. -/
def isActiveForm (el : DomElement) : Bool :=
  el.classes.contains "form" && el.classes.contains "active"

/-! Theorems.  Helper lemmas first, then one theorem per claim. -/

theorem lexLe_total : ∀ xs ys : List Nat, lexLe xs ys = true ∨ lexLe ys xs = true
  | [], _ => Or.inl rfl
  | _ :: _, [] => Or.inr rfl
  | a :: as, b :: bs => by
    simp only [lexLe]
    rcases Nat.lt_trichotomy a b with h | h | h
    · left; simp [h]
    · subst h
      simp only [Nat.lt_irrefl, if_false]
      exact lexLe_total as bs
    · right; simp [h, Nat.lt_asymm h]

theorem lexLe_trans : ∀ xs ys zs : List Nat,
    lexLe xs ys = true → lexLe ys zs = true → lexLe xs zs = true
  | [], _, _, _, _ => rfl
  | _ :: _, [], _, h1, _ => by simp [lexLe] at h1
  | _ :: _, _ :: _, [], _, h2 => by simp [lexLe] at h2
  | a :: as, b :: bs, c :: cs, h1, h2 => by
    simp only [lexLe] at h1 h2 ⊢
    split_ifs at h1 h2 ⊢ <;>
      first
        | rfl
        | omega
        | exact lexLe_trans as bs cs h1 h2

theorem jsNumLe_total (x y : JsNum) : JsNum.le x y = true ∨ JsNum.le y x = true := by
  cases x <;> cases y <;> simp [JsNum.le] <;> exact le_total _ _

theorem jsNumLe_trans (x y z : JsNum) (h1 : JsNum.le x y = true)
    (h2 : JsNum.le y z = true) : JsNum.le x z = true := by
  cases x <;> cases y <;> cases z <;> simp_all [JsNum.le] <;> exact le_trans h1 h2

theorem filmLe_total (lower : String → String) (field : SortField)
    (a b : Film) :
    filmLe lower field a b = true ∨ filmLe lower field b a = true := by
  cases field <;>
    simp only [filmLe] <;>
    first
      | exact lexLe_total _ _
      | exact jsNumLe_total _ _

theorem filmLe_trans (lower : String → String) (field : SortField)
    (a b c : Film) (h1 : filmLe lower field a b = true)
    (h2 : filmLe lower field b c = true) :
    filmLe lower field a c = true := by
  cases field <;>
    simp only [filmLe] at h1 h2 ⊢ <;>
    first
      | exact lexLe_trans _ _ _ h1 h2
      | exact jsNumLe_trans _ _ _ h1 h2

/-- C3: for any platform case fold `lower` (the code's
`String.prototype.toLowerCase`), `sortFilms` returns a permutation of
its input (a fresh sequence; the input list itself is an immutable
value and is not changed); the `price` ordering is ascending by the
numeric parse with missing or non-numeric values keyed as `0`; every
other field orders ascending by the case-folded text with a missing
value keyed as the empty string. -/
theorem sortFilms_spec (lower : String → String) (films : List Film)
    (field : SortField) :
    (sortFilms lower films field).Perm films
    ∧ ((sortFilms lower films SortField.price).Pairwise
        (fun a b => JsNum.le (priceKey a) (priceKey b) = true))
    ∧ (∀ f : Film, f.price = none → priceKey f = JsNum.fin 0)
    ∧ (∀ (f : Film) (s : String), f.price = some (JsPrim.str s) →
        parseFloatQ s = none → priceKey f = JsNum.fin 0)
    ∧ (field ≠ SortField.price → (sortFilms lower films field).Pairwise
        (fun a b => lexLe (utf16Units (lower (strFieldVal field a)))
          (utf16Units (lower (strFieldVal field b))) = true))
    ∧ (∀ f : Film, f.title = none → strFieldVal SortField.title f = "")
    ∧ (∀ f : Film, f.author = none → strFieldVal SortField.author f = "") := by
  refine ⟨List.mergeSort_perm films (filmLe lower field), ?_, ?_, ?_, ?_, ?_, ?_⟩
  · have h := List.sorted_mergeSort
      (fun a b c => filmLe_trans lower SortField.price a b c)
      (fun a b => by
        rcases filmLe_total lower SortField.price a b with h | h <;> simp [h])
      films
    exact h.imp (fun hab => hab)
  · intro f hf; simp [priceKey, hf, parseFloatQ, parseUnsignedNum]
  · intro f s hf hs; simp [priceKey, hf, hs]
  · intro hne
    have h := List.sorted_mergeSort
      (fun a b c => filmLe_trans lower field a b c)
      (fun a b => by
        rcases filmLe_total lower field a b with h | h <;> simp [h]) films
    refine h.imp (fun hab => ?_)
    cases field with
    | price => exact absurd rfl hne
    | title => exact hab
    | author => exact hab
  · intro f hf; simp [strFieldVal, hf]
  · intro f hf; simp [strFieldVal, hf]

/-- C3 witness: the claim instantiated on a concrete two-film list
sorted by price, with the fold instantiated by the ASCII `strToLower`
(which agrees with the JS fold on these ASCII inputs). -/
theorem sortFilms_spec_witness :
    (sortFilms strToLower
      [⟨some "B", none, some (JsPrim.str "20")⟩,
       ⟨some "A", none, some (JsPrim.str "5")⟩] SortField.price).Perm
      [⟨some "B", none, some (JsPrim.str "20")⟩,
       ⟨some "A", none, some (JsPrim.str "5")⟩]
    ∧ (sortFilms strToLower
        [⟨some "B", none, some (JsPrim.str "20")⟩,
         ⟨some "A", none, some (JsPrim.str "5")⟩] SortField.price).Pairwise
        (fun a b => JsNum.le (priceKey a) (priceKey b) = true)
    ∧ priceKey ⟨some "B", none, none⟩ = JsNum.fin 0 := by
  have h := sortFilms_spec strToLower
    [⟨some "B", none, some (JsPrim.str "20")⟩,
     ⟨some "A", none, some (JsPrim.str "5")⟩] SortField.price
  exact ⟨h.1, h.2.1, h.2.2.1 ⟨some "B", none, none⟩ rfl⟩

/-- C4: sorting is idempotent for any platform case fold; a second
sort by the same field returns the first result unchanged, because the
first result is already ordered by the comparator's total preorder and
the stable sort leaves a sorted list as it is. -/
theorem sortFilms_idempotent (lower : String → String) (films : List Film)
    (field : SortField) :
    sortFilms lower (sortFilms lower films field) field =
      sortFilms lower films field := by
  apply List.mergeSort_of_sorted
  exact List.sorted_mergeSort
    (fun a b c => filmLe_trans lower field a b c)
    (fun a b => by rcases filmLe_total lower field a b with h | h <;> simp [h])
    films

theorem countP_eraseIdx_of_findIdx {α : Type} (p : α → Bool) :
    ∀ (l : List α) (j k : Nat), List.findIdx? p l j = some k →
      j ≤ k ∧ (l.eraseIdx (k - j)).countP p + 1 = l.countP p
  | [], j, k => by intro h; simp [List.findIdx?] at h
  | a :: l, j, k => by
    intro h
    rw [List.findIdx?_cons] at h
    by_cases hpa : p a = true
    · rw [if_pos hpa] at h
      injection h with h
      subst h
      refine ⟨Nat.le_refl j, ?_⟩
      simp [List.countP_cons, hpa]
    · rw [if_neg hpa] at h
      obtain ⟨hjk, hrec⟩ := countP_eraseIdx_of_findIdx p l (j + 1) k h
      refine ⟨by omega, ?_⟩
      have hk : k - j = (k - (j + 1)) + 1 := by omega
      rw [hk]
      simp [List.eraseIdx_cons_succ, List.countP_cons, hpa]
      omega

theorem findIdx_eq_none_of_countP_zero {α : Type} (p : α → Bool) (l : List α)
    (h : l.countP p = 0) : l.findIdx? p = none := by
  rw [List.findIdx?_eq_none_iff]
  intro x hx
  by_contra hpx
  have := List.countP_eq_zero.mp h x hx
  simp_all

theorem toggleCart_add_cart (st : AppState) (m : Movie) (b : Bool)
    (hfind : st.cart.findIdx? (idMatches m.id) = none) :
    (toggleCart st m (Except.ok ()) b).state.cart = st.cart ++ [m] := by
  cases b <;> simp [toggleCart, hfind, updateStorage]

theorem toggleCart_remove_cart (st : AppState) (m : Movie) (b : Bool) (k : Nat)
    (hfind : st.cart.findIdx? (idMatches m.id) = some k) :
    (toggleCart st m (Except.ok ()) b).state.cart = st.cart.eraseIdx k := by
  cases b <;> simp [toggleCart, hfind, updateStorage]

theorem toggleBookmark_add_bookmarks (st : AppState) (m : Movie) (b : Bool)
    (hfind : st.bookmarks.findIdx? (idMatches m.id) = none) :
    (toggleBookmark st m (Except.ok ()) b).state.bookmarks =
      st.bookmarks ++ [m] := by
  cases b <;> simp [toggleBookmark, hfind, updateStorage]

theorem toggleBookmark_remove_bookmarks (st : AppState) (m : Movie) (b : Bool)
    (k : Nat) (hfind : st.bookmarks.findIdx? (idMatches m.id) = some k) :
    (toggleBookmark st m (Except.ok ()) b).state.bookmarks =
      st.bookmarks.eraseIdx k := by
  cases b <;> simp [toggleBookmark, hfind, updateStorage]

/-- C1: a failed server call in either branch of `toggleCart` or
`toggleBookmark` leaves the whole client state untouched: the
in-memory lists are exactly as before and neither persisted snapshot
is rewritten (the exception is thrown before any mutation, and
`updateStorage` only runs after the mutation). -/
theorem toggle_failure_preserves_state (st : AppState) (m : Movie) (e : String)
    (b : Bool) :
    (toggleCart st m (Except.error e) b).state = st
    ∧ (toggleBookmark st m (Except.error e) b).state = st := by
  refine ⟨?_, ?_⟩
  · cases hfind : st.cart.findIdx? (idMatches m.id) <;>
      simp [toggleCart, hfind]
  · cases hfind : st.bookmarks.findIdx? (idMatches m.id) <;>
      simp [toggleBookmark, hfind]

/-- C2: with a successful server call, toggling a movie whose
string-compared id is absent leaves exactly one entry with that id,
and toggling one whose id is present leaves zero entries with it.
The present case carries the sync store's uniqueness invariant
(exactly one matching entry) as hypothesis: `findIndex`/`splice`
removes one entry, so `idCount st.cart m.id = 1` states both presence
and the invariant.  The conclusions hold whether or not the glyph
button exists, since the list mutation precedes the glyph write. -/
theorem toggle_success_membership (st : AppState) (m : Movie) (b : Bool) :
    (idCount st.cart m.id = 0 →
      idCount (toggleCart st m (Except.ok ()) b).state.cart m.id = 1)
    ∧ (idCount st.cart m.id = 1 →
      idCount (toggleCart st m (Except.ok ()) b).state.cart m.id = 0)
    ∧ (idCount st.bookmarks m.id = 0 →
      idCount (toggleBookmark st m (Except.ok ()) b).state.bookmarks m.id = 1)
    ∧ (idCount st.bookmarks m.id = 1 →
      idCount (toggleBookmark st m (Except.ok ()) b).state.bookmarks m.id = 0) := by
  refine ⟨?_, ?_, ?_, ?_⟩
  · intro h
    have hfind := findIdx_eq_none_of_countP_zero (idMatches m.id) st.cart h
    rw [idCount, toggleCart_add_cart st m b hfind, List.countP_append]
    rw [show st.cart.countP (idMatches m.id) = 0 from h]
    simp [List.countP_cons, idMatches]
  · intro h
    cases hfind : st.cart.findIdx? (idMatches m.id) with
    | none =>
      have h0 : st.cart.countP (idMatches m.id) = 0 :=
        List.countP_eq_zero.mpr (by
          intro a ha
          simp [List.findIdx?_eq_none_iff.mp hfind a ha])
      exact absurd (h0.symm.trans h) zero_ne_one
    | some k =>
      have hc := countP_eraseIdx_of_findIdx (idMatches m.id) st.cart 0 k hfind
      rw [idCount, toggleCart_remove_cart st m b k hfind]
      rw [idCount] at h
      simp only [Nat.sub_zero] at hc
      omega
  · intro h
    have hfind := findIdx_eq_none_of_countP_zero (idMatches m.id) st.bookmarks h
    rw [idCount, toggleBookmark_add_bookmarks st m b hfind, List.countP_append]
    rw [show st.bookmarks.countP (idMatches m.id) = 0 from h]
    simp [List.countP_cons, idMatches]
  · intro h
    cases hfind : st.bookmarks.findIdx? (idMatches m.id) with
    | none =>
      have h0 : st.bookmarks.countP (idMatches m.id) = 0 :=
        List.countP_eq_zero.mpr (by
          intro a ha
          simp [List.findIdx?_eq_none_iff.mp hfind a ha])
      exact absurd (h0.symm.trans h) zero_ne_one
    | some k =>
      have hc := countP_eraseIdx_of_findIdx (idMatches m.id) st.bookmarks 0 k hfind
      rw [idCount, toggleBookmark_remove_bookmarks st m b k hfind]
      rw [idCount] at h
      simp only [Nat.sub_zero] at hc
      omega

/-- C2 witness: adding to an empty cart and removing from a singleton
bookmark list at a concrete movie. -/
theorem toggle_success_membership_witness :
    idCount (toggleCart ⟨[], [], [], []⟩ ⟨Sum.inl "7", "T", "A", "5"⟩
      (Except.ok ()) true).state.cart (Sum.inl "7") = 1
    ∧ idCount (toggleBookmark ⟨[], [⟨Sum.inl "7", "T", "A", "5"⟩], [], []⟩
      ⟨Sum.inl "7", "T", "A", "5"⟩ (Except.ok ()) true).state.bookmarks
      (Sum.inl "7") = 0 := by
  have h1 := toggle_success_membership ⟨[], [], [], []⟩
    ⟨Sum.inl "7", "T", "A", "5"⟩ true
  have h2 := toggle_success_membership ⟨[], [⟨Sum.inl "7", "T", "A", "5"⟩], [], []⟩
    ⟨Sum.inl "7", "T", "A", "5"⟩ true
  exact ⟨h1.1 (by decide), h2.2.2.2 (by decide)⟩

/-- C8 counterexample: with a successful server add but no matching
button in the DOM, the in-memory cart gains the entry, yet the
persisted cart snapshot is NOT rewritten (the claim says persistence
still occurs).  The glyph write on the `null` button throws before
`updateStorage()` runs, and the failure alert is shown. -/
theorem toggle_missing_button_counterexample :
    (toggleCart ⟨[], [], [], []⟩ ⟨Sum.inl "1", "T", "A", "5"⟩
      (Except.ok ()) false).state.cart = [⟨Sum.inl "1", "T", "A", "5"⟩]
    ∧ (toggleCart ⟨[], [], [], []⟩ ⟨Sum.inl "1", "T", "A", "5"⟩
      (Except.ok ()) false).state.storageCart ≠ [⟨Sum.inl "1", "T", "A", "5"⟩]
    ∧ (toggleCart ⟨[], [], [], []⟩ ⟨Sum.inl "1", "T", "A", "5"⟩
      (Except.ok ()) false).alert = typeErrorMessage := by
  refine ⟨rfl, ?_, rfl⟩
  decide

/-- C8 (amended): when the server call succeeds but no button matches
the movie's id, the in-memory mutation still occurs (append on the
absent branch, removal at the found index on the present branch), but
the `null`-button glyph write throws a TypeError, so the persisted
snapshots are NOT rewritten by this invocation, no glyph is written,
and the failure notification is shown instead of the success one. -/
theorem toggle_missing_button_spec (st : AppState) (m : Movie) :
    ((toggleCart st m (Except.ok ()) false).state.storageCart = st.storageCart
      ∧ (toggleCart st m (Except.ok ()) false).state.storageBookmarks =
          st.storageBookmarks
      ∧ (toggleCart st m (Except.ok ()) false).glyph = none
      ∧ (toggleCart st m (Except.ok ()) false).alert = typeErrorMessage)
    ∧ (idCount st.cart m.id = 0 →
        (toggleCart st m (Except.ok ()) false).state.cart = st.cart ++ [m])
    ∧ (∀ k, st.cart.findIdx? (idMatches m.id) = some k →
        (toggleCart st m (Except.ok ()) false).state.cart = st.cart.eraseIdx k)
    ∧ ((toggleBookmark st m (Except.ok ()) false).state.storageCart =
          st.storageCart
      ∧ (toggleBookmark st m (Except.ok ()) false).state.storageBookmarks =
          st.storageBookmarks
      ∧ (toggleBookmark st m (Except.ok ()) false).glyph = none
      ∧ (toggleBookmark st m (Except.ok ()) false).alert = typeErrorMessage)
    ∧ (idCount st.bookmarks m.id = 0 →
        (toggleBookmark st m (Except.ok ()) false).state.bookmarks =
          st.bookmarks ++ [m])
    ∧ (∀ k, st.bookmarks.findIdx? (idMatches m.id) = some k →
        (toggleBookmark st m (Except.ok ()) false).state.bookmarks =
          st.bookmarks.eraseIdx k) := by
  refine ⟨?_, ?_, ?_, ?_, ?_, ?_⟩
  · cases hfind : st.cart.findIdx? (idMatches m.id) <;>
      simp [toggleCart, hfind]
  · intro h
    exact toggleCart_add_cart st m false
      (findIdx_eq_none_of_countP_zero (idMatches m.id) st.cart h)
  · intro k hfind
    exact toggleCart_remove_cart st m false k hfind
  · cases hfind : st.bookmarks.findIdx? (idMatches m.id) <;>
      simp [toggleBookmark, hfind]
  · intro h
    exact toggleBookmark_add_bookmarks st m false
      (findIdx_eq_none_of_countP_zero (idMatches m.id) st.bookmarks h)
  · intro k hfind
    exact toggleBookmark_remove_bookmarks st m false k hfind

/-- C8 (amended) witness: the amended statement instantiated at an
empty client state and a concrete movie. -/
theorem toggle_missing_button_spec_witness :
    (toggleCart ⟨[], [], [], []⟩ ⟨Sum.inl "9", "T", "A", "5"⟩
      (Except.ok ()) false).state.storageCart = []
    ∧ (toggleCart ⟨[], [], [], []⟩ ⟨Sum.inl "9", "T", "A", "5"⟩
      (Except.ok ()) false).state.cart = [⟨Sum.inl "9", "T", "A", "5"⟩] := by
  have h := toggle_missing_button_spec ⟨[], [], [], []⟩
    ⟨Sum.inl "9", "T", "A", "5"⟩
  exact ⟨h.1.1, h.2.1 (by decide)⟩

/-- C5: the request helper parses an empty body to an empty object and
wraps a non-JSON body as `detail: text`; on a success status it
returns the parsed body; on a non-success status it throws with the
message selected from the truthy `detail` field, else the truthy
`message` field, else the fixed generic phrase, a non-string selection
being stringified (`messageToString`).  `jsonParse` stands for
`JSON.parse`, arbitrary here because the helper only branches on its
success. -/
theorem apiRequest_spec (jsonParse : String → Option JsValue)
    (res : FetchResponse) :
    (res.body = "" → parseResponseBody jsonParse res.body = JsValue.obj [])
    ∧ (res.body ≠ "" → jsonParse res.body = none →
      parseResponseBody jsonParse res.body =
        JsValue.obj [("detail", JsValue.str res.body)])
    ∧ (res.ok = true → apiRequest jsonParse res =
      Except.ok (parseResponseBody jsonParse res.body))
    ∧ (res.ok = false →
      jsTruthy (parseResponseBody jsonParse res.body) = true →
      ∀ v, getField (parseResponseBody jsonParse res.body) "detail" = some v →
      jsTruthy v = true →
      apiRequest jsonParse res = Except.error (messageToString v))
    ∧ (res.ok = false →
      jsTruthy (parseResponseBody jsonParse res.body) = true →
      optTruthy (getField (parseResponseBody jsonParse res.body) "detail") =
        false →
      ∀ v, getField (parseResponseBody jsonParse res.body) "message" = some v →
      jsTruthy v = true →
      apiRequest jsonParse res = Except.error (messageToString v))
    ∧ (res.ok = false →
      jsTruthy (parseResponseBody jsonParse res.body) = true →
      optTruthy (getField (parseResponseBody jsonParse res.body) "detail") =
        false →
      optTruthy (getField (parseResponseBody jsonParse res.body) "message") =
        false →
      apiRequest jsonParse res = Except.error "Ошибка запроса")
    ∧ (res.ok = false →
      jsTruthy (parseResponseBody jsonParse res.body) = false →
      apiRequest jsonParse res = Except.error "Ошибка запроса") := by
  refine ⟨?_, ?_, ?_, ?_, ?_, ?_, ?_⟩
  · intro h; simp [parseResponseBody, h]
  · intro h hp; simp [parseResponseBody, h, hp]
  · intro h; simp [apiRequest, h]
  · intro h hd v hv htv
    simp only [apiRequest, h, if_false, Bool.false_eq_true]
    rw [requestErrorMessage, requestErrorValue, selectErrVal, if_pos hd, hv]
    simp only [optTruthy, htv, if_true, if_pos htv]
    cases v <;> simp_all [messageToString, jsTruthy]
  · intro h hd hdet v hv htv
    simp only [apiRequest, h, if_false, Bool.false_eq_true]
    rw [requestErrorMessage, requestErrorValue, selectErrVal, if_pos hd,
      if_neg (by simp [hdet]), hv]
    simp only [if_pos htv]
    cases v <;> simp_all [messageToString, jsTruthy]
  · intro h hd hdet hmsg
    simp only [apiRequest, h, if_false, Bool.false_eq_true]
    rw [requestErrorMessage, requestErrorValue, selectErrVal, if_pos hd,
      if_neg (by simp [hdet])]
    cases hv : getField (parseResponseBody jsonParse res.body) "message" with
    | none => rfl
    | some v =>
      rw [hv] at hmsg
      simp only [optTruthy] at hmsg
      simp [hmsg, requestErrorMessage]
  · intro h hd
    simp only [apiRequest, h, if_false, Bool.false_eq_true]
    rw [requestErrorMessage, requestErrorValue, selectErrVal, if_neg (by simp [hd])]
    simp [hd]

/-- C5 witness: a failed response with a non-JSON body `oops` throws
with the wrapped detail text. -/
theorem apiRequest_spec_witness :
    apiRequest (fun _ => none) ⟨false, "oops"⟩ = Except.error "oops" := by
  have h := apiRequest_spec (fun _ => none) ⟨false, "oops"⟩
  exact h.2.2.2.1 rfl (by decide) (JsValue.str "oops") rfl (by decide)

theorem find?_map_hset_same (k v : String) :
    ∀ l : List (String × String), l.any (fun kv => kv.1 == k) = true →
      List.find? (fun kv => kv.1 == k)
        (l.map (fun kv => if kv.1 == k then (k, v) else kv)) = some (k, v)
  | [], h => by simp at h
  | a :: l, h => by
    by_cases ha : (a.1 == k) = true
    · have hak : a.1 = k := by simpa using ha
      simp [List.find?_cons, hak]
    · have ha2 : (a.1 == k) = false := by simp_all
      have hl : l.any (fun kv => kv.1 == k) = true := by
        simp only [List.any_cons, ha2, Bool.false_or] at h
        exact h
      simp only [List.map_cons, ha2, Bool.false_eq_true, if_false,
        List.find?_cons]
      exact find?_map_hset_same k v l hl

theorem find?_map_hset_other (k v k2 : String) (hne : k2 ≠ k) :
    ∀ l : List (String × String),
      List.find? (fun kv => kv.1 == k2)
        (l.map (fun kv => if kv.1 == k then (k, v) else kv)) =
      List.find? (fun kv => kv.1 == k2) l
  | [] => rfl
  | a :: l => by
    by_cases ha : (a.1 == k) = true
    · have hak : a.1 = k := by simpa using ha
      have h1 : ((k : String) == k2) = false := by
        simp only [beq_eq_false_iff_ne, ne_eq]
        exact fun h => hne h.symm
      have h2 : (a.1 == k2) = false := by rw [hak]; exact h1
      simp only [List.map_cons, ha, if_true, List.find?_cons, h1, h2]
      exact find?_map_hset_other k v k2 hne l
    · have ha2 : (a.1 == k) = false := by simp_all
      simp only [List.map_cons, ha2, Bool.false_eq_true, if_false,
        List.find?_cons]
      cases hb : (a.1 == k2) with
      | true => rfl
      | false => exact find?_map_hset_other k v k2 hne l

theorem getHeader_hset_same (hs : List (String × String)) (k v : String) :
    getHeader (hset hs k v) k = some v := by
  rw [hset]
  by_cases hany : hs.any (fun kv => kv.1 == k) = true
  · rw [if_pos hany, getHeader, find?_map_hset_same k v hs hany]
    rfl
  · rw [if_neg hany, getHeader, List.find?_append]
    have hnone : hs.find? (fun kv => kv.1 == k) = none := by
      rw [List.find?_eq_none]
      intro x hx hxk
      apply hany
      rw [List.any_eq_true]
      exact ⟨x, hx, hxk⟩
    rw [hnone]
    simp [List.find?_cons]

theorem getHeader_hset_other (hs : List (String × String)) (k v k2 : String)
    (hne : k2 ≠ k) : getHeader (hset hs k v) k2 = getHeader hs k2 := by
  rw [hset]
  by_cases hany : hs.any (fun kv => kv.1 == k) = true
  · rw [if_pos hany, getHeader, find?_map_hset_other k v k2 hne hs]
    rfl
  · rw [if_neg hany, getHeader, List.find?_append]
    have h1 : List.find? (fun kv => kv.1 == k2) [(k, v)] = none := by
      have : ((k : String) == k2) = false := by
        simp only [beq_eq_false_iff_ne, ne_eq]
        exact fun h => hne h.symm
      simp [List.find?_cons, this]
    rw [h1, getHeader]
    cases List.find? (fun kv => kv.1 == k2) hs <;> rfl

theorem getHeader_foldl_hset :
    ∀ (caller acc : List (String × String)) (k : String),
      (caller.map Prod.fst).Nodup →
      getHeader (caller.foldl (fun a kv => hset a kv.1 kv.2) acc) k =
        (getHeader caller k).or (getHeader acc k)
  | [], acc, k, _ => by simp [getHeader]
  | (k0, v0) :: rest, acc, k, hnd => by
    simp only [List.map_cons, List.nodup_cons] at hnd
    obtain ⟨hk0, hnd⟩ := hnd
    rw [List.foldl_cons]
    rw [getHeader_foldl_hset rest (hset acc k0 v0) k hnd]
    by_cases hk : k = k0
    · subst hk
      have hrest : getHeader rest k = none := by
        rw [getHeader, List.find?_eq_none.mpr]
        · rfl
        · intro kv hkv hp
          have : kv.1 = k := by simpa using hp
          exact hk0 (this ▸ List.mem_map_of_mem Prod.fst hkv)
      have hhead : getHeader ((k, v0) :: rest) k = some v0 := by
        simp [getHeader, List.find?_cons]
      rw [hrest, getHeader_hset_same, hhead]
      rfl
    · rw [getHeader_hset_other acc k0 v0 k hk]
      have hhead : getHeader ((k0, v0) :: rest) k = getHeader rest k := by
        have h0 : ((k0 : String) == k) = false := by
          simp only [beq_eq_false_iff_ne, ne_eq]
          exact fun h => hk h.symm
        simp [getHeader, List.find?_cons, h0]
      rw [hhead]

/-- C6 counterexample: with a stored token, a caller-supplied
`Authorization` header does NOT win; the gateway assigns
`Authorization: Bearer <token>` after merging caller headers, so the
caller's value `X` is overwritten. -/
theorem buildHeaders_counterexample :
    getHeader (buildHeaders [("Authorization", "X")] (some "t"))
      "Authorization" = some "Bearer t"
    ∧ getHeader (buildHeaders [("Authorization", "X")] (some "t"))
      "Authorization" ≠ some "X" := by
  refine ⟨by decide, by decide⟩

/-- C6 (amended): the headers sent are the defaults overridden by
caller-supplied headers for every name except `Authorization`: the
`Content-Type` default and any other header follow the caller's value
when supplied (`.or` of caller lookup over the default map), and with
no stored token a caller `Authorization` is sent as given; but when a
token is stored the `Authorization` header is always
`Bearer <token>`, overriding any caller-supplied value.  The caller
header object is modelled as an association list with distinct keys
(a JS object literal cannot carry duplicate keys at runtime). -/
theorem buildHeaders_spec (caller : List (String × String))
    (token : Option String) :
    (∀ t, token = some t →
      getHeader (buildHeaders caller token) "Authorization" =
        some ("Bearer " ++ t))
    ∧ ((caller.map Prod.fst).Nodup → token = none →
      getHeader (buildHeaders caller token) "Authorization" =
        getHeader caller "Authorization")
    ∧ ((caller.map Prod.fst).Nodup → ∀ k, k ≠ "Authorization" →
      getHeader (buildHeaders caller token) k =
        (getHeader caller k).or
          (getHeader [("Content-Type", "application/json")] k)) := by
  refine ⟨?_, ?_, ?_⟩
  · intro t ht
    subst ht
    rw [buildHeaders]
    exact getHeader_hset_same _ "Authorization" ("Bearer " ++ t)
  · intro hnd ht
    subst ht
    rw [buildHeaders]
    rw [getHeader_foldl_hset caller _ "Authorization" hnd]
    have : getHeader [("Content-Type", "application/json")] "Authorization" =
        none := by decide
    rw [this]
    cases getHeader caller "Authorization" <;> rfl
  · intro hnd k hk
    cases token with
    | none =>
      rw [buildHeaders]
      exact getHeader_foldl_hset caller _ k hnd
    | some t =>
      rw [buildHeaders]
      rw [getHeader_hset_other _ "Authorization" ("Bearer " ++ t) k hk]
      exact getHeader_foldl_hset caller _ k hnd

/-- C6 (amended) witness: a caller overriding `Content-Type` and
adding a custom header, with a stored token. -/
theorem buildHeaders_spec_witness :
    getHeader (buildHeaders [("Content-Type", "text/plain"), ("X-Custom", "1")]
      (some "t")) "Authorization" = some "Bearer t"
    ∧ getHeader (buildHeaders [("Content-Type", "text/plain"), ("X-Custom", "1")]
      (some "t")) "Content-Type" = some "text/plain"
    ∧ getHeader (buildHeaders [("Content-Type", "text/plain"), ("X-Custom", "1")]
      (some "t")) "X-Custom" = some "1" := by
  have h := buildHeaders_spec [("Content-Type", "text/plain"), ("X-Custom", "1")]
    (some "t")
  refine ⟨h.1 "t" rfl, ?_, ?_⟩
  · exact (h.2.2 (by decide) "Content-Type" (by decide)).trans (by decide)
  · exact (h.2.2 (by decide) "X-Custom" (by decide)).trans (by decide)

theorem isActiveForm_deactivateForms (doc : List DomElement) :
    ∀ el ∈ deactivateForms doc, isActiveForm el = false := by
  intro el hel
  rw [deactivateForms] at hel
  obtain ⟨x, hx, rfl⟩ := List.mem_map.mp hel
  by_cases hf : x.classes.contains "form" = true
  · rw [if_pos hf]
    simp only [isActiveForm, Bool.and_eq_false_iff]
    right
    by_contra hc
    rw [Bool.not_eq_false] at hc
    have hmem : "active" ∈ x.classes.filter (fun c => c != "active") := by
      simpa using hc
    have := (List.mem_filter.mp hmem).2
    simp at this
  · rw [if_neg hf]
    simp only [isActiveForm, Bool.and_eq_false_iff]
    left
    exact Bool.not_eq_true _ |>.mp hf

theorem countP_addActiveAt_le :
    ∀ (l : List DomElement) (fid : String),
      (∀ el ∈ l, isActiveForm el = false) →
      (addActiveAt l fid).countP isActiveForm ≤ 1
  | [], _, _ => by simp [addActiveAt]
  | el :: rest, fid, h => by
    rw [addActiveAt]
    by_cases he : (el.id == fid) = true
    · rw [if_pos he, List.countP_cons]
      have hrest : rest.countP isActiveForm = 0 :=
        List.countP_eq_zero.mpr (fun e he2 => by
          simp [h e (List.mem_cons_of_mem el he2)])
      rw [hrest]
      by_cases hc : el.classes.contains "active" = true
      · rw [if_pos hc]
        split <;> simp
      · rw [if_neg hc]
        split <;> simp
    · rw [if_neg he, List.countP_cons]
      have h0 : isActiveForm el = false := h el (List.mem_cons_self el rest)
      rw [h0]
      simp only [Bool.false_eq_true, if_false, Nat.add_zero]
      exact countP_addActiveAt_le rest fid
        (fun e he2 => h e (List.mem_cons_of_mem el he2))

theorem active_id_addActiveAt :
    ∀ (l : List DomElement) (fid : String),
      (∀ el ∈ l, isActiveForm el = false) →
      ∀ el ∈ addActiveAt l fid, isActiveForm el = true → el.id = fid
  | [], _, _, el, hel => by simp [addActiveAt] at hel
  | e :: rest, fid, h, el, hel => by
    rw [addActiveAt] at hel
    by_cases he : (e.id == fid) = true
    · rw [if_pos he] at hel
      have heid : e.id = fid := by simpa using he
      rcases List.mem_cons.mp hel with rfl | hel2
      · intro _
        split <;> simpa using heid
      · intro hact
        exact absurd hact (by simp [h el (List.mem_cons_of_mem e hel2)])
    · rw [if_neg he] at hel
      rcases List.mem_cons.mp hel with rfl | hel2
      · intro hact
        exact absurd hact (by simp [h el (List.mem_cons_self el rest)])
      · exact active_id_addActiveAt rest fid
          (fun x hx => h x (List.mem_cons_of_mem e hx)) el hel2

theorem addActiveAt_no_match :
    ∀ (l : List DomElement) (fid : String),
      (∀ el ∈ l, el.id ≠ fid) → addActiveAt l fid = l
  | [], _, _ => rfl
  | e :: rest, fid, h => by
    rw [addActiveAt]
    have hne : (e.id == fid) = false := by
      simp only [beq_eq_false_iff_ne, ne_eq]
      exact h e (List.mem_cons_self e rest)
    rw [hne]
    simp only [Bool.false_eq_true, if_false]
    rw [addActiveAt_no_match rest fid
      (fun x hx => h x (List.mem_cons_of_mem e hx))]

theorem addActiveAt_activates :
    ∀ (l : List DomElement) (fid : String), (∃ el ∈ l, el.id = fid) →
      ∃ el ∈ addActiveAt l fid, el.id = fid ∧
        el.classes.contains "active" = true
  | [], _, h => by simp at h
  | e :: rest, fid, h => by
    rw [addActiveAt]
    by_cases he : (e.id == fid) = true
    · rw [if_pos he]
      have heid : e.id = fid := by simpa using he
      by_cases hc : e.classes.contains "active" = true
      · rw [if_pos hc]
        exact ⟨e, List.mem_cons_self e _, heid, hc⟩
      · rw [if_neg hc]
        refine ⟨_, List.mem_cons_self _ _, heid, ?_⟩
        simp
    · rw [if_neg he]
      have hrest : ∃ el ∈ rest, el.id = fid := by
        obtain ⟨el, hmem, hid⟩ := h
        rcases List.mem_cons.mp hmem with rfl | hmem2
        · exact absurd (by simp [hid]) he
        · exact ⟨el, hmem2, hid⟩
      obtain ⟨el, hmem, hid, hact⟩ := addActiveAt_activates rest fid hrest
      exact ⟨el, List.mem_cons_of_mem _ hmem, hid, hact⟩

/-- C7 counterexample: calling `showForm` with an id that matches no
element is NOT a no-op; the single active form gets deactivated
(the deactivation pass runs before the target is looked up). -/
theorem showForm_counterexample :
    showForm [⟨"a", ["form", "active"]⟩] "b" = [⟨"a", ["form"]⟩]
    ∧ showForm [⟨"a", ["form", "active"]⟩] "b" ≠
        [⟨"a", ["form", "active"]⟩] := by
  refine ⟨by decide, by decide⟩

/-- C7 (amended): after `showForm` at most one `.form` element is
active, any active form is the target id, and when an element with the
target id exists it ends up carrying the active class; but when no
element carries the given id the call equals the deactivation pass
alone — every form ends inactive — rather than leaving the active
states as they were. -/
theorem showForm_spec (doc : List DomElement) (formId : String) :
    (showForm doc formId).countP isActiveForm ≤ 1
    ∧ (∀ el ∈ showForm doc formId, isActiveForm el = true → el.id = formId)
    ∧ ((∃ el ∈ doc, el.id = formId) →
        ∃ el ∈ showForm doc formId, el.id = formId ∧
          el.classes.contains "active" = true)
    ∧ ((∀ el ∈ doc, el.id ≠ formId) →
        showForm doc formId = deactivateForms doc) := by
  have hall := isActiveForm_deactivateForms doc
  refine ⟨countP_addActiveAt_le _ formId hall,
    active_id_addActiveAt _ formId hall, ?_, ?_⟩
  · intro h
    obtain ⟨x, hx, hid⟩ := h
    exact addActiveAt_activates _ formId
      ⟨_, List.mem_map_of_mem _ hx, by
        by_cases hf : "form" ∈ x.classes <;> simp [hf, hid]⟩
  intro h
  rw [showForm]
  apply addActiveAt_no_match
  intro el hel
  rw [deactivateForms] at hel
  obtain ⟨x, hx, rfl⟩ := List.mem_map.mp hel
  have hxid := h x hx
  by_cases hf : "form" ∈ x.classes <;> simp [hf, hxid]

/-- C7 (amended) witness: two forms with one target, and a one-form
document addressed with an absent id. -/
theorem showForm_spec_witness :
    (showForm [⟨"loginForm", ["form"]⟩, ⟨"registerForm", ["form", "active"]⟩]
      "loginForm").countP isActiveForm ≤ 1
    ∧ (∃ el ∈ showForm [⟨"loginForm", ["form"]⟩,
        ⟨"registerForm", ["form", "active"]⟩] "loginForm",
        el.id = "loginForm" ∧ el.classes.contains "active" = true)
    ∧ showForm [⟨"x", ["form", "active"]⟩] "nope" =
        deactivateForms [⟨"x", ["form", "active"]⟩] := by
  have h1 := showForm_spec
    [⟨"loginForm", ["form"]⟩, ⟨"registerForm", ["form", "active"]⟩] "loginForm"
  have h2 := showForm_spec [⟨"x", ["form", "active"]⟩] "nope"
  exact ⟨h1.1, h1.2.2.1 ⟨_, List.mem_cons_self _ _, rfl⟩, h2.2.2.2 (by decide)⟩

/-- C9 counterexample: a record with no embedded payload titled
`toString` — which matches no table entry, exactly or
case-insensitively — does NOT resolve to the generic placeholder: the
guard `if (titleMapping[title])` hits the inherited, truthy
`Object.prototype.toString` and the code returns it.  The inherited
branch runs before any `toLowerCase` call, so the fold instantiation
(the ASCII `strToLower` here) is irrelevant to it. -/
theorem movieImageSrc_counterexample :
    movieImageSrc strToLower ⟨some "toString", none⟩ =
      some (ImageSrc.inherited "toString")
    ∧ movieImageSrc strToLower ⟨some "toString", none⟩ ≠
      some (ImageSrc.str "/images_for_movies/placeholder.jpg") := by
  refine ⟨by decide, by decide⟩

/-- C9 (amended): for any platform case fold `lower`, a truthy
embedded payload without the `data:image/` prefix is wrapped with the
default MIME data-URI prefix; one already carrying the prefix passes
through unchanged; without a payload the table is consulted with the
exact title first; a title that matches no entry but names an
`Object.prototype` member yields the truthy inherited value instead of
any table path or placeholder; otherwise a case-insensitive match (in
table order) yields that entry's path, and with no match at all the
generic placeholder path results. -/
theorem movieImageSrc_spec (lower : String → String) (film : RenderFilm) :
    (∀ b, film.movie_base64 = some b → b ≠ "" →
      strStartsWith b "data:image/" = false →
      movieImageSrc lower film =
        some (ImageSrc.str ("data:image/jpeg;base64," ++ b)))
    ∧ (∀ b, film.movie_base64 = some b →
      strStartsWith b "data:image/" = true →
      movieImageSrc lower film = some (ImageSrc.str b))
    ∧ (∀ t kv, film.movie_base64 = none → film.title = some t →
      titleMapping.find? (fun p => p.1 == t) = some kv →
      movieImageSrc lower film = some (ImageSrc.str kv.2))
    ∧ (∀ t, film.movie_base64 = none → film.title = some t →
      titleMapping.find? (fun p => p.1 == t) = none →
      objectPrototypeMembers.contains t = true →
      movieImageSrc lower film = some (ImageSrc.inherited t))
    ∧ (∀ t kv, film.movie_base64 = none → film.title = some t →
      titleMapping.find? (fun p => p.1 == t) = none →
      objectPrototypeMembers.contains t = false →
      titleMapping.find? (fun p => lower p.1 == lower t) = some kv →
      movieImageSrc lower film = some (ImageSrc.str kv.2))
    ∧ (∀ t, film.movie_base64 = none → film.title = some t →
      titleMapping.find? (fun p => p.1 == t) = none →
      objectPrototypeMembers.contains t = false →
      titleMapping.find? (fun p => lower p.1 == lower t) = none →
      movieImageSrc lower film =
        some (ImageSrc.str "/images_for_movies/placeholder.jpg")) := by
  refine ⟨?_, ?_, ?_, ?_, ?_, ?_⟩
  · intro b hb hne hpre
    simp [movieImageSrc, hb, hne, hpre]
  · intro b hb hpre
    have hne : b ≠ "" := by
      intro h
      rw [h] at hpre
      simp [strStartsWith, List.isPrefixOf] at hpre
    simp [movieImageSrc, hb, hne, hpre]
  · intro t kv hb ht hfind
    simp [movieImageSrc, hb, ht, getImagePathForFilm, hfind]
  · intro t hb ht hfind hproto
    have hmem : t ∈ objectPrototypeMembers := by simpa using hproto
    simp [movieImageSrc, hb, ht, getImagePathForFilm, hfind, hmem]
  · intro t kv hb ht hfind hproto hfold
    have hmem : t ∉ objectPrototypeMembers := by simpa using hproto
    simp [movieImageSrc, hb, ht, getImagePathForFilm, hfind, hmem, hfold]
  · intro t hb ht hfind hproto hfold
    have hmem : t ∉ objectPrototypeMembers := by simpa using hproto
    simp [movieImageSrc, hb, ht, getImagePathForFilm, hfind, hmem, hfold]

/-- C9 (amended) witness: a raw payload gets the default prefix; a
prefix-carrying payload passes through; a differently-cased known
title hits the case-insensitive lookup; an unknown, non-prototype
title falls back to the placeholder (fold instantiated by the ASCII
`strToLower`, which agrees with the JS fold on these inputs). -/
theorem movieImageSrc_spec_witness :
    movieImageSrc strToLower ⟨some "X", some "abc"⟩ =
      some (ImageSrc.str "data:image/jpeg;base64,abc")
    ∧ movieImageSrc strToLower ⟨some "X", some "data:image/png;base64,zz"⟩ =
      some (ImageSrc.str "data:image/png;base64,zz")
    ∧ movieImageSrc strToLower ⟨some "the matrix", none⟩ =
      some (ImageSrc.str "/images_for_movies/the_matrix.jpg")
    ∧ movieImageSrc strToLower ⟨some "No Such Film", none⟩ =
      some (ImageSrc.str "/images_for_movies/placeholder.jpg") := by
  refine ⟨?_, ?_, ?_, ?_⟩
  · exact (movieImageSrc_spec strToLower ⟨some "X", some "abc"⟩).1 "abc" rfl
      (by decide) (by decide)
  · exact (movieImageSrc_spec strToLower
      ⟨some "X", some "data:image/png;base64,zz"⟩).2.1
      "data:image/png;base64,zz" rfl (by decide)
  · exact (movieImageSrc_spec strToLower ⟨some "the matrix", none⟩).2.2.2.2.1
      "the matrix" ("The Matrix", "/images_for_movies/the_matrix.jpg") rfl rfl
      (by decide) (by decide) (by decide)
  · exact (movieImageSrc_spec strToLower ⟨some "No Such Film", none⟩).2.2.2.2.2
      "No Such Film" rfl rfl (by decide) (by decide) (by decide)

/-- C10: a login submit with non-empty (trimmed) username and
non-empty password whose gateway call succeeds with a body lacking the
`access_token` field leaves the stored token exactly as it was — no
token is written or removed — while the navigation to the fixed
landing page `/home.html` still occurs. -/
theorem login_no_token_field (u p : String) (prev : Option String)
    (data : JsValue) (hu : strTrim u ≠ "") (hp : p ≠ "")
    (hf : getField data "access_token" = none) :
    (loginSubmit u p prev (Except.ok data)).storedToken = prev
    ∧ (loginSubmit u p prev (Except.ok data)).location = some "/home.html" := by
  rw [loginSubmit]
  rw [if_neg (by simp [hu, hp])]
  simp [hf]

/-- C10 witness: concrete credentials against a response body `{}`
keep the previously stored token and navigate. -/
theorem login_no_token_field_witness :
    (loginSubmit "alice" "pw" (some "old") (Except.ok (JsValue.obj []))).storedToken
      = some "old"
    ∧ (loginSubmit "alice" "pw" (some "old")
        (Except.ok (JsValue.obj []))).location = some "/home.html" :=
  login_no_token_field "alice" "pw" (some "old") (JsValue.obj [])
    (by decide) (by decide) rfl

end Videoteka
